import Mathlib

/-!
Verification of the schema migration engine of the recipes repository.

The repository ships two migration runners (`src/backend/manage_migrations.py`
with integer versions, and `src/db/manage_migrations.py` with
from/to version pairs) and an offline schema differ
(`src/db/generate_migration.py`).  This file shallowly embeds the pure parts
(SQL statement splitting, migration file parsing, file discovery, the diff
generator) over `List Char`, and embeds the stateful runner commands as
functions over an explicit database state, where per-statement SQL execution
is an abstract oracle `σ → List Char → Option σ` (None models a raised
database error) and the work of one connection becomes durable only when the
source commits (a failing statement therefore leaves the committed state
unchanged, modelling the transaction rollback the source requests from
SQLAlchemy).
-/

set_option maxRecDepth 20000

/-- Shorthand turning a string literal into the `List Char` the embedding uses. -/
def cs (s : String) : List Char := s.toList

/-- The ASCII whitespace characters Python's `str.strip`/`lstrip` remove. -/
def isPySpace (c : Char) : Bool :=
  c = ' ' || c = '\t' || c = '\n' || c = '\r' || c = '\x0b' || c = '\x0c'

/-- Python `str.lstrip()`. -/
def pyLstrip (l : List Char) : List Char := l.dropWhile isPySpace

/-- Python `str.strip()`. -/
def pyStrip (l : List Char) : List Char :=
  ((l.dropWhile isPySpace).reverse.dropWhile isPySpace).reverse

/-- Python `str.splitlines()` restricted to the line endings that occur in
SQL files: `\n`, `\r\n` and `\r`.  No trailing empty line is produced. -/
def pySplitlines : List Char → List (List Char) :=
  go []
where
  go (cur : List Char) : List Char → List (List Char)
    | [] => if cur = [] then [] else [cur]
    | '\r' :: '\n' :: rest => cur :: go [] rest
    | '\r' :: rest => cur :: go [] rest
    | '\n' :: rest => cur :: go [] rest
    | c :: rest => go (cur ++ [c]) rest

/-- Python `sep.join(lines)` for `sep = "\n"`. -/
def joinLines (ls : List (List Char)) : List Char := List.intercalate ['\n'] ls

/-- Python `s.split(sep)` for a non-empty separator `sep`: split at each
non-overlapping occurrence, scanning left to right.  `skip` counts separator
characters still to be consumed after a match (the scan advances one character
per step so that the recursion is structural). -/
def pySplitGo (sep : List Char) (skip : Nat) (hd : List Char) : List Char → List (List Char)
  | [] => [hd]
  | c :: rest =>
    match skip with
    | n + 1 => pySplitGo sep n hd rest
    | 0 =>
      if sep.isPrefixOf (c :: rest) then
        hd :: pySplitGo sep (sep.length - 1) [] rest
      else
        pySplitGo sep 0 (hd ++ [c]) rest

/-- Python `s.split(sep)`; the empty separator (a `ValueError` in Python) is
never used by the source and returns the whole string. -/
def pySplit (sep l : List Char) : List (List Char) :=
  match sep with
  | [] => [l]
  | _ :: _ => pySplitGo sep 0 [] l

/-- Python `sep in l` (substring containment), expressed through `pySplit`
exactly as the source's membership tests behave. -/
def containsSub (sep l : List Char) : Bool := 2 ≤ (pySplit sep l).length

/-- Value of a non-empty all-digit string, as Python `int()` reads it. -/
def digitsToNat (l : List Char) : Nat :=
  l.foldl (fun n c => 10 * n + (c.toNat - '0'.toNat)) 0

/-- Python `s.replace(a, b)` for single characters. -/
def pyReplaceChar (a b : Char) (l : List Char) : List Char :=
  l.map (fun c => if c = a then b else c)

/-- Runs a list of SQL statements one at a time through the execution oracle,
stopping at the first failure (the first raised database error). -/
def execAll (exec : σ → List Char → Option σ) : σ → List (List Char) → Option σ
  | s, [] => some s
  | s, stmt :: rest =>
    match exec s stmt with
    | none => none
    | some s' => execAll exec s' rest

/-- Whether `a` occurs at some position of `l` strictly before a later
occurrence of `b` (used to state execution-order facts about statement lists). -/
def occursBefore [DecidableEq α] (a b : α) : List α → Bool
  | [] => false
  | x :: xs => if x = a then b ∈ xs else occursBefore a b xs

namespace Db

/-! The quote-aware Statement Splitter of `src/db/manage_migrations.py`
(`split_sql_statements`, lines 131-199). -/

/-- Whether a line's first non-whitespace characters begin a `--` line comment
(`line.lstrip().startswith('--')`). -/
def isCommentLine (l : List Char) : Bool :=
  match pyLstrip l with
  | '-' :: '-' :: _ => true
  | _ => false

/-- Step 1 of `split_sql_statements`: drop whole comment lines, rejoin with
newlines. -/
def stripCommentLines (sql : List Char) : List Char :=
  joinLines ((pySplitlines sql).filter (fun l => !isCommentLine l))

/-- The character scan of `split_sql_statements` (lines 147-198): two in-quote
flags, a statement buffer, and the remaining input.  A doubled quote of the
open kind is consumed as two literal characters without toggling the flag; a
semicolon ends a statement only when both flags are false; the stripped
trailing buffer is emitted when non-empty. -/
def splitSqlLoop : Bool → Bool → List Char → List Char → List (List Char)
  | _, _, buf, [] =>
    if pyStrip buf = [] then [] else [pyStrip buf]
  | sq, dq, buf, c :: rest =>
    if c = '\'' ∧ dq = false then
      match rest with
      | c2 :: t =>
        if sq = true ∧ c2 = '\'' then
          splitSqlLoop sq dq (buf ++ ['\'', '\'']) t
        else
          splitSqlLoop (!sq) dq (buf ++ [c]) (c2 :: t)
      | [] => splitSqlLoop (!sq) dq (buf ++ [c]) []
    else if c = '"' ∧ sq = false then
      match rest with
      | c2 :: t =>
        if dq = true ∧ c2 = '"' then
          splitSqlLoop sq dq (buf ++ ['"', '"']) t
        else
          splitSqlLoop sq (!dq) (buf ++ [c]) (c2 :: t)
      | [] => splitSqlLoop sq (!dq) (buf ++ [c]) []
    else if c = ';' ∧ sq = false ∧ dq = false then
      (if pyStrip buf = [] then [] else [pyStrip buf]) ++ splitSqlLoop sq dq [] rest
    else
      splitSqlLoop sq dq (buf ++ [c]) rest

/-- `split_sql_statements` of `src/db/manage_migrations.py`. -/
def split_sql_statements (sql : List Char) : List (List Char) :=
  splitSqlLoop false false [] (stripCommentLines sql)

end Db

/-- Every semicolon of the text lies inside a single- or double-quoted region,
where the quote state is traced exactly as the splitter's scan traces it
(same branching as `Db.splitSqlLoop`, with no buffer).  This formalises the
claim's hypothesis "every semicolon occurs inside a quoted region". -/
def semisQuoted : Bool → Bool → List Char → Bool
  | _, _, [] => true
  | sq, dq, c :: rest =>
    if c = '\'' ∧ dq = false then
      match rest with
      | c2 :: t =>
        if sq = true ∧ c2 = '\'' then semisQuoted sq dq t
        else semisQuoted (!sq) dq (c2 :: t)
      | [] => semisQuoted (!sq) dq []
    else if c = '"' ∧ sq = false then
      match rest with
      | c2 :: t =>
        if dq = true ∧ c2 = '"' then semisQuoted sq dq t
        else semisQuoted sq (!dq) (c2 :: t)
      | [] => semisQuoted sq (!dq) []
    else if c = ';' ∧ sq = false ∧ dq = false then
      false
    else
      semisQuoted sq dq rest

/-- The UPGRADE marker both parsers look for. -/
def upgrade_marker : List Char := cs "-- ==== UPGRADE ===="

/-- The DOWNGRADE marker both parsers look for. -/
def downgrade_marker : List Char := cs "-- ==== DOWNGRADE ===="

/-- The persisted database as the runners see it: whether the version tracking
table exists, its rows `(version, description)` in insertion (`applied_at`)
order, and the user schema/data state `σ` that migration SQL acts on.
`ν` is the version key type: `Nat` for the backend runner's `schema_version`
table, `List Char` for the db runner's `migration_version` table. -/
structure DBState (ν σ : Type) where
  tableExists : Bool
  tracking : List (ν × List Char)
  user : σ
deriving DecidableEq

/-- Result of one CLI command: a normal return carrying the committed database
state, or `sys.exit code` with the state at exit time. -/
inductive RunResult (ν σ : Type) where
  | ok (db : DBState ν σ)
  | exited (code : Nat) (db : DBState ν σ)
deriving DecidableEq

/-- The `direction` argument of the two `apply_migration` functions. -/
inductive Direction where
  | upgrade
  | downgrade
deriving DecidableEq

namespace Backend

/-! The integer-versioned runner of `src/backend/manage_migrations.py`. -/

/-- One discovered migration file of the backend runner: integer version,
description derived from the filename, the filename, and the file's content
(standing for the file found at `path`). -/
structure Migration where
  version : Nat
  description : List Char
  filename : List Char
  content : List Char
deriving DecidableEq

/-- `parse_migration_file` of `src/backend/manage_migrations.py` (lines
106-130): both markers are required; returns the stripped upgrade and
downgrade bodies, `none` modelling the `(None, None)` failure returns. -/
def parse_migration_file (content : List Char) : Option (List Char × List Char) :=
  if containsSub upgrade_marker content = false ∨ containsSub downgrade_marker content = false then
    none
  else
    let parts := pySplit upgrade_marker content
    if parts.length < 2 then none
    else
      let upgrade_and_rest := pySplit downgrade_marker (parts.getD 1 [])
      if upgrade_and_rest.length < 2 then none
      else
        some (pyStrip (upgrade_and_rest.getD 0 []), pyStrip (upgrade_and_rest.getD 1 []))

/-- The inline statement split of backend `apply_migration` (line 146):
`[s.strip() for s in sql_to_execute.split(';') if s.strip()]`. -/
def splitStatements (sql : List Char) : List (List Char) :=
  ((pySplit [';'] sql).map pyStrip).filter (fun s => !s.isEmpty)

/-- `apply_migration` of `src/backend/manage_migrations.py` (lines 133-165).
`none` models `return False`: the connection's work is not committed, so the
caller's state stays `db` (transaction rollback).  `some db'` models `return
True` with `db'` the committed state after the statements and the tracking
INSERT (upgrade) or DELETE (downgrade). -/
def apply_migration (exec : σ → List Char → Option σ) (db : DBState Nat σ)
    (m : Migration) (direction : Direction) : Option (DBState Nat σ) :=
  match parse_migration_file m.content with
  | none => none
  | some (upgrade_sql, downgrade_sql) =>
    if upgrade_sql = [] ∨ downgrade_sql = [] then none
    else
      let sql_to_execute :=
        match direction with
        | .upgrade => upgrade_sql
        | .downgrade => downgrade_sql
      match execAll exec db.user (splitStatements sql_to_execute) with
      | none => none
      | some u' =>
        match direction with
        | .upgrade =>
          some { db with
                 user := u'
                 tracking := db.tracking ++ [(m.version, m.description)] }
        | .downgrade =>
          some { db with
                 user := u'
                 tracking := db.tracking.filter (fun r => decide (r.1 ≠ m.version)) }

/-- `ensure_schema_version_table` (lines 58-68): `CREATE TABLE IF NOT EXISTS`;
creating the table makes it exist with no rows, an existing table is left
untouched. -/
def ensure_schema_version_table (db : DBState Nat σ) : DBState Nat σ :=
  if db.tableExists then db else { db with tableExists := true, tracking := ([] : List (Nat × List Char)) }

/-- Largest tracked version, `0` when there are no rows (`SELECT version FROM
schema_version ORDER BY version DESC LIMIT 1`, `row[0] if row else 0`). -/
def maxVersion (rows : List (Nat × List Char)) : Nat :=
  rows.foldr (fun r acc => max r.1 acc) 0

/-- `get_current_version` (lines 71-79): ensures the tracking table exists,
then reads the largest version; the possibly-updated state is returned
alongside. -/
def get_current_version (db : DBState Nat σ) : DBState Nat σ × Nat :=
  let db1 := ensure_schema_version_table db
  (db1, maxVersion db1.tracking)

/-- The version records the store holds: none when the table does not exist. -/
def versionRecords (db : DBState Nat σ) : List (Nat × List Char) :=
  if db.tableExists then db.tracking else []

/-- The filename pattern `^V(\d+)_(.+)\.sql$` of backend
`get_migration_files`: a leading `V`, one or more digits, `_`, then a greedy
non-empty description ending in the final `.sql`. -/
def matchMigrationName (f : List Char) : Option (Nat × List Char) :=
  match f with
  | 'V' :: rest =>
    let ds := rest.takeWhile Char.isDigit
    let r1 := rest.dropWhile Char.isDigit
    if ds = [] then none
    else
      match r1 with
      | '_' :: r2 =>
        if 5 ≤ r2.length ∧ r2.drop (r2.length - 4) = cs ".sql" then
          some (digitsToNat ds, r2.take (r2.length - 4))
        else none
      | _ => none
  | _ => none

/-- `get_migration_files` (lines 82-103) over a directory snapshot: a listing
of `(filename, file content)` pairs in the order `os.listdir` returns them.
Matching files become `Migration`s (underscores in the description become
spaces), and the result is sorted ascending by version (`sorted(...,
key=lambda x: x['version'])`, a stable sort). -/
def get_migration_files (listing : List (List Char × List Char)) : List Migration :=
  let migrations := listing.filterMap (fun fc =>
    (matchMigrationName fc.1).map (fun vd =>
      ({ version := vd.1
         description := pyReplaceChar '_' ' ' vd.2
         filename := fc.1
         content := fc.2 } : Migration)))
  migrations.insertionSort (fun a b => a.version ≤ b.version)

/-- `cmd_check` (lines 208-221): reads the current version and computes the
pending list it prints; mutates nothing beyond `ensure_schema_version_table`.
`migrations` stands for the `get_migration_files()` result. -/
def cmd_check (db : DBState Nat σ) (migrations : List Migration) :
    DBState Nat σ × List Migration :=
  let (db1, current) := get_current_version db
  (db1, migrations.filter (fun m => decide (current < m.version)))

/-- The `for migration in pending` loop of `cmd_upgrade` (lines 238-245),
ending with the `get_current_version` read of line 247 (a no-op `ensure` on an
existing table).  A failing `apply_migration` prints and `sys.exit(1)`s. -/
def upgradeLoop (exec : σ → List Char → Option σ) :
    DBState Nat σ → List Migration → RunResult Nat σ
  | db, [] => .ok (ensure_schema_version_table db)
  | db, m :: rest =>
    match apply_migration exec db m .upgrade with
    | some db' => upgradeLoop exec db' rest
    | none => .exited 1 db

/-- `cmd_upgrade` (lines 224-247). -/
def cmd_upgrade (exec : σ → List Char → Option σ) (db : DBState Nat σ)
    (migrations : List Migration) : RunResult Nat σ :=
  let (db1, current) := get_current_version db
  let pending := migrations.filter (fun m => decide (current < m.version))
  if pending = [] then .ok db1
  else upgradeLoop exec db1 pending

/-- The regex `^V?(\d+)$` used to read version arguments: an optional
leading `V`, then one or more digits. -/
def parseVersionArg (s : List Char) : Option Nat :=
  let digits :=
    match s with
    | 'V' :: rest => rest
    | _ => s
  if digits ≠ [] ∧ digits.all Char.isDigit then some (digitsToNat digits) else none

/-- The rollback loop of `cmd_downgrade` (lines 282-289), ending with the
`get_current_version` read of line 291. -/
def downgradeLoop (exec : σ → List Char → Option σ) :
    DBState Nat σ → List Migration → RunResult Nat σ
  | db, [] => .ok (ensure_schema_version_table db)
  | db, m :: rest =>
    match apply_migration exec db m .downgrade with
    | some db' => downgradeLoop exec db' rest
    | none => .exited 1 db

/-- Lines 276-291 of `cmd_downgrade`: collect the migrations with
`target_version < version <= current`, reverse them, and roll each back. -/
def runRollback (exec : σ → List Char → Option σ) (db1 : DBState Nat σ)
    (migrations : List Migration) (target_version current : Nat) : RunResult Nat σ :=
  downgradeLoop exec db1
    ((migrations.filter
        (fun m => decide (target_version < m.version ∧ m.version ≤ current))).reverse)

/-- `cmd_downgrade` (lines 250-291).  `targetArg` models `args.target` (`none`
when `--target` was not given).  The guard paths (already at base version,
invalid target format, target not below current) print and `return`, which is
a normal exit: `.ok`. -/
def cmd_downgrade (exec : σ → List Char → Option σ) (db : DBState Nat σ)
    (migrations : List Migration) (targetArg : Option (List Char)) :
    RunResult Nat σ :=
  let (db1, current) := get_current_version db
  if current ≤ 1 then .ok db1
  else
    match targetArg with
    | some s =>
      (match parseVersionArg s with
       | none => .ok db1
       | some target_version =>
         if current ≤ target_version then .ok db1
         else runRollback exec db1 migrations target_version current)
    | none => runRollback exec db1 migrations (current - 1) current

/-- Folding `apply_migration ... upgrade` over a list of migrations, `none` at
the first failure: names the state reached after a prefix of the pending list. -/
def applyAll (exec : σ → List Char → Option σ) :
    DBState Nat σ → List Migration → Option (DBState Nat σ)
  | db, [] => some db
  | db, m :: rest =>
    match apply_migration exec db m .upgrade with
    | some db' => applyAll exec db' rest
    | none => none

end Backend

namespace Db

/-! The pair-versioned runner of `src/db/manage_migrations.py`. -/

/-- One discovered migration file of the db runner: from/to version strings
decoded from the filename, the filename, and the file's content. -/
structure Migration where
  from_version : List Char
  to_version : List Char
  filename : List Char
  content : List Char
deriving DecidableEq

/-- `parse_migration_file` of `src/db/manage_migrations.py` (lines 108-129):
only the UPGRADE marker is required; a missing DOWNGRADE marker yields an
empty downgrade body. -/
def parse_migration_file (content : List Char) : Option (List Char × List Char) :=
  if containsSub upgrade_marker content = false then none
  else
    let parts := pySplit upgrade_marker content
    if parts.length < 2 then none
    else
      let upgrade_and_rest := pySplit downgrade_marker (parts.getD 1 [])
      some (pyStrip (upgrade_and_rest.getD 0 []),
        if 2 ≤ upgrade_and_rest.length then pyStrip (upgrade_and_rest.getD 1 []) else [])

/-- `apply_migration` of `src/db/manage_migrations.py` (lines 201-239): the
tracking keys are version strings; the recorded description is `"Migration to
{to_version}"`; statements are split with the quote-aware Splitter, and the
loop's `if statement:` guard drops empty strings. -/
def apply_migration (exec : σ → List Char → Option σ) (db : DBState (List Char) σ)
    (m : Migration) (direction : Direction) : Option (DBState (List Char) σ) :=
  match parse_migration_file m.content with
  | none => none
  | some (upgrade_sql, downgrade_sql) =>
    if upgrade_sql = [] then none
    else
      let sql_to_execute :=
        match direction with
        | .upgrade => upgrade_sql
        | .downgrade => downgrade_sql
      if sql_to_execute = [] then none
      else
        match execAll exec db.user
            ((split_sql_statements sql_to_execute).filter (fun st => !st.isEmpty)) with
        | none => none
        | some u' =>
          match direction with
          | .upgrade =>
            some { db with
                   user := u'
                   tracking := db.tracking ++
                     [(m.to_version, cs "Migration to " ++ m.to_version)] }
          | .downgrade =>
            some { db with
                   user := u'
                   tracking := db.tracking.filter (fun r => decide (r.1 ≠ m.to_version)) }

/-- The indices at which `pat` occurs as a sublist of `l`. -/
def subIndices (pat l : List Char) : List Nat :=
  (List.range (l.length + 1)).filter (fun i => pat.isPrefixOf (l.drop i))

/-- The filename pattern `^migrate_(.+)_to_(.+)\.sql$` of db
`get_migration_files`: both groups are greedy, so the name splits at the last
occurrence of `_to_` that leaves a non-empty first group and a non-empty
second group before the final `.sql`. -/
def matchMigrationName (f : List Char) : Option (List Char × List Char) :=
  if (cs "migrate_").isPrefixOf f then
    let rest := f.drop 8
    let cands := (subIndices (cs "_to_") rest).filter (fun i =>
      decide (1 ≤ i) && decide (5 ≤ (rest.drop (i + 4)).length) &&
        decide ((rest.drop (i + 4)).drop ((rest.drop (i + 4)).length - 4) = cs ".sql"))
    match cands.getLast? with
    | none => none
    | some i =>
      let tl := rest.drop (i + 4)
      some (rest.take i, tl.take (tl.length - 4))
  else none

/-- `get_migration_files` of `src/db/manage_migrations.py` (lines 83-105):
collects matching files in directory-listing order, turning underscores in
each version group into dots.  Despite its docstring ("sorted by version"),
it applies no sort. -/
def get_migration_files (listing : List (List Char × List Char)) : List Migration :=
  listing.filterMap (fun fc =>
    (matchMigrationName fc.1).map (fun ft =>
      ({ from_version := pyReplaceChar '_' '.' ft.1
         to_version := pyReplaceChar '_' '.' ft.2
         filename := fc.1
         content := fc.2 } : Migration)))

end Db

namespace Gen

/-! The Schema Differ of `src/db/generate_migration.py`. -/

/-- Case-insensitive prefix test, as the regex's IGNORECASE flag reads the
literal `CREATE TABLE`. -/
def ciHasPrefix (pat l : List Char) : Bool :=
  decide ((l.take pat.length).map Char.toLower = pat)

/-- The regex word characters `\w` (ASCII): letters, digits, underscore. -/
def isWordChar (c : Char) : Bool := c.isAlphanum || c = '_'

/-- Index of the first occurrence of `pat` in `l`. -/
def findSubIdx (pat : List Char) : List Char → Option Nat
  | [] => if pat = [] then some 0 else none
  | c :: rest =>
    if pat.isPrefixOf (c :: rest) then some 0
    else (findSubIdx pat rest).map (· + 1)

/-- One attempted match of `CREATE TABLE\s+(\w+)\s*\((.*?)\);` (with
DOTALL and IGNORECASE) at the start of `s`: returns the table name, the
stripped body (group 2, lazily ending at the first `);`), the full matched
statement (group 0) and the number of characters consumed. -/
def matchCreateTableAt (s : List Char) : Option (List Char × (List Char × List Char) × Nat) :=
  if ciHasPrefix (cs "create table") s then
    let r0 := s.drop 12
    let ws1 := r0.takeWhile isPySpace
    if ws1 = [] then none
    else
      let r1 := r0.drop ws1.length
      let nm := r1.takeWhile isWordChar
      if nm = [] then none
      else
        let r2 := r1.drop nm.length
        let ws2 := r2.takeWhile isPySpace
        let r3 := r2.drop ws2.length
        match r3 with
        | '(' :: r4 =>
          match findSubIdx (cs ");") r4 with
          | none => none
          | some j =>
            let total := 12 + ws1.length + nm.length + ws2.length + 1 + j + 2
            some (nm, (pyStrip (r4.take j), s.take total), total)
        | _ => none
  else none

/-- `re.finditer` over the pattern: scan left to right, resuming after each
match.  `skip` counts characters of the current match still to be consumed
(one character is consumed per step so the recursion is structural; a match
always consumes at least 15 characters, so `total - 1` is the correct skip). -/
def extractGo : Nat → List Char → List (List Char × (List Char × List Char))
  | _, [] => []
  | skip, c :: rest =>
    match skip with
    | n + 1 => extractGo n rest
    | 0 =>
      match matchCreateTableAt (c :: rest) with
      | some (nm, bdfull, total) => (nm, bdfull) :: extractGo (total - 1) rest
      | none => extractGo 0 rest

/-- Python dict insertion: a repeated key keeps its original position and takes
the new value. -/
def dictInsert (k : List Char) (v : List Char × List Char) :
    List (List Char × (List Char × List Char)) →
    List (List Char × (List Char × List Char))
  | [] => [(k, v)]
  | p :: rest => if p.1 = k then (k, v) :: rest else p :: dictInsert k v rest

/-- `extract_table_definitions` of `src/db/generate_migration.py` (lines
95-111): the dict mapping each table name to its stripped definition body and
full `CREATE TABLE` statement, in first-appearance order. -/
def extract_table_definitions (sql : List Char) :
    List (List Char × (List Char × List Char)) :=
  (extractGo 0 sql).foldl (fun d t => dictInsert t.1 t.2 d) []

/-- `table_name in tables` on the extracted dict. -/
def hasTable (d : List (List Char × (List Char × List Char))) (k : List Char) : Bool :=
  d.any (fun p => decide (p.1 = k))

/-- `tables[table_name]` on the extracted dict. -/
def lookupTable (d : List (List Char × (List Char × List Char))) (k : List Char) :
    Option (List Char × List Char) :=
  match d with
  | [] => none
  | p :: rest => if p.1 = k then some p.2 else lookupTable rest k

/-- `generate_diff` of `src/db/generate_migration.py` (lines 113-155): new
tables append their creation to the upgrade list and push a drop block onto
the front of the downgrade list; dropped tables append a drop to the upgrade
list and push a recreation block onto the front of the downgrade list;
modified tables append a manual-review placeholder to the upgrade list. -/
def generate_diff (from_sql to_sql : List Char) :
    List (List Char) × List (List Char) :=
  let from_tables := extract_table_definitions from_sql
  let to_tables := extract_table_definitions to_sql
  let p1 := to_tables.foldl (fun acc t =>
    if hasTable from_tables t.1 then acc
    else
      (acc.1 ++ [cs "-- Create new table: " ++ t.1, t.2.2, []],
       [cs "-- Drop table: " ++ t.1,
        cs "DROP TABLE IF EXISTS " ++ t.1 ++ cs ";", []] ++ acc.2))
    ([], [])
  let p2 := from_tables.foldl (fun acc t =>
    if hasTable to_tables t.1 then acc
    else
      (acc.1 ++ [cs "-- Drop table: " ++ t.1,
                 cs "DROP TABLE IF EXISTS " ++ t.1 ++ cs ";", []],
       [cs "-- Recreate table: " ++ t.1, t.2.2, []] ++ acc.2))
    p1
  let p3 := to_tables.foldl (fun acc t =>
    if hasTable from_tables t.1 then
      match lookupTable from_tables t.1 with
      | some fd =>
        if fd.1 ≠ t.2.1 then
          (acc.1 ++ [cs "-- TODO: Review changes to " ++ t.1,
                     cs "-- Compare definitions manually and add ALTER TABLE statements",
                     []],
           acc.2)
        else acc
      | none => acc
    else acc)
    p2
  p3

end Gen

/-- Witness data: old schema text with tables A and B. -/
def exOld : List Char :=
  cs "CREATE TABLE A (x INT);\nCREATE TABLE B (y INT);"

/-- Witness data: new schema text with tables B and C. -/
def exNew : List Char :=
  cs "CREATE TABLE B (y INT);\nCREATE TABLE C (z INT);"

/-- Witness oracle: logs each executed statement and always succeeds. -/
def execLog (s : List (List Char)) (stmt : List Char) : Option (List (List Char)) :=
  some (s ++ [stmt])

/-- Witness oracle: logs each executed statement, raising (None) on the
statement `BOOM`. -/
def execBoom (s : List (List Char)) (stmt : List Char) : Option (List (List Char)) :=
  if stmt = cs "BOOM" then none else some (s ++ [stmt])

/-- Witness data: an initialised store at version 1, empty statement log. -/
def dbV1 : DBState Nat (List (List Char)) :=
  ⟨true, [(1, cs "Initial schema")], []⟩

/-- Witness data: a pending change-set whose upgrade body is the failing
statement `BOOM`. -/
def migBad : Backend.Migration :=
  ⟨2, cs "bad change", cs "V2_bad_change.sql",
    cs "-- ==== UPGRADE ====\nBOOM\n-- ==== DOWNGRADE ====\nNOP"⟩

/-- Witness data: migration V1 (base). -/
def migV1 : Backend.Migration :=
  ⟨1, cs "base", cs "V1_base.sql",
    cs "-- ==== UPGRADE ====\nSELECT 1\n-- ==== DOWNGRADE ====\nSELECT 1"⟩

/-- Witness data: migration V2 creating table `u`. -/
def migV2 : Backend.Migration :=
  ⟨2, cs "add u", cs "V2_add_u.sql",
    cs "-- ==== UPGRADE ====\nCREATE TABLE u (x INT)\n-- ==== DOWNGRADE ====\nDROP TABLE u"⟩

/-- Witness data: migration V3 creating table `w`. -/
def migV3 : Backend.Migration :=
  ⟨3, cs "add w", cs "V3_add_w.sql",
    cs "-- ==== UPGRADE ====\nCREATE TABLE w (y INT)\n-- ==== DOWNGRADE ====\nDROP TABLE w"⟩

/-- Witness data: store at version 3 with rows for V1, V2, V3. -/
def dbV3 : DBState Nat (List (List Char)) :=
  ⟨true, [(1, cs "Initial schema"), (2, cs "add u"), (3, cs "add w")], []⟩

/-- Witness data: `dbV3` after rolling back V3. -/
def dbV3a : DBState Nat (List (List Char)) :=
  ⟨true, [(1, cs "Initial schema"), (2, cs "add u")], [cs "DROP TABLE w"]⟩

/-- Witness data: `dbV3a` after rolling back V2. -/
def dbV3b : DBState Nat (List (List Char)) :=
  ⟨true, [(1, cs "Initial schema")], [cs "DROP TABLE w", cs "DROP TABLE u"]⟩

/-- Witness data: `dbV1` after applying `migV2`. -/
def dbV2' : DBState Nat (List (List Char)) :=
  ⟨true, [(1, cs "Initial schema"), (2, cs "add u")], [cs "CREATE TABLE u (x INT)"]⟩

/-- Witness data: a forward-only change-set file body (UPGRADE marker and a
non-empty upgrade body, no DOWNGRADE marker). -/
def fwdOnlyContent : List Char :=
  cs "-- ==== UPGRADE ====\nCREATE TABLE y (b INT)"

/-- Witness data: a change-set file body whose DOWNGRADE marker is present but
followed by no text. -/
def emptyDownContent : List Char :=
  cs "-- ==== UPGRADE ====\nCREATE TABLE y (b INT)\n-- ==== DOWNGRADE ====\n"

/-- Witness data: the forward-only file as a backend migration. -/
def migFwdOnly : Backend.Migration :=
  ⟨2, cs "add y", cs "V2_add_y.sql", fwdOnlyContent⟩

/-- Witness data: the empty-downgrade file as a backend migration. -/
def migEmptyDown : Backend.Migration :=
  ⟨2, cs "add y", cs "V2_add_y.sql", emptyDownContent⟩

/-- Witness data: the forward-only file as a db-runner migration. -/
def migFwdOnlyDb : Db.Migration :=
  ⟨cs "1.0.0", cs "1.1.0", cs "migrate_1_0_0_to_1_1_0.sql", fwdOnlyContent⟩

/-- Witness data: an initialised db-runner store with an empty statement log. -/
def dbDb : DBState (List Char) (List (List Char)) :=
  ⟨true, [(cs "1.0.0", cs "Initial schema")], []⟩

/-- Core invariant for C2: while every remaining semicolon is quoted, the scan
never emits a statement mid-way, so it returns the stripped concatenation of
the buffer and the whole remaining input (one statement, or none when blank). -/
theorem splitSqlLoop_all_quoted (sq dq : Bool) (buf l : List Char) :
    semisQuoted sq dq l = true →
      Db.splitSqlLoop sq dq buf l =
        (if pyStrip (buf ++ l) = [] then [] else [pyStrip (buf ++ l)]) := by
  induction sq, dq, buf, l using Db.splitSqlLoop.induct with
  | case1 x y buf h =>
    intro _
    simp [Db.splitSqlLoop, h]
  | case2 x y buf h =>
    intro _
    simp [Db.splitSqlLoop, h]
  | case3 sq dq buf c h1 c2 t h2 ih =>
    intro hq
    obtain ⟨rfl, rfl⟩ := h1
    obtain ⟨rfl, rfl⟩ := h2
    rw [semisQuoted.eq_def] at hq
    simp at hq
    rw [Db.splitSqlLoop.eq_def]
    simp [ih hq]
  | case4 sq dq buf c h1 c2 t h2 ih =>
    intro hq
    obtain ⟨rfl, rfl⟩ := h1
    rw [semisQuoted.eq_def] at hq
    simp [h2] at hq
    rw [Db.splitSqlLoop.eq_def]
    simp [h2, ih hq]
  | case5 sq dq buf c h1 ih =>
    intro _
    obtain ⟨rfl, rfl⟩ := h1
    rw [Db.splitSqlLoop.eq_def]
    simp [ih (by simp [semisQuoted])]
  | case6 sq dq buf c h0 h1 c2 t h2 ih =>
    intro hq
    obtain ⟨rfl, rfl⟩ := h1
    obtain ⟨rfl, rfl⟩ := h2
    rw [semisQuoted.eq_def] at hq
    simp [h0] at hq
    rw [Db.splitSqlLoop.eq_def]
    simp [h0, ih hq]
  | case7 sq dq buf c h0 h1 c2 t h2 ih =>
    intro hq
    obtain ⟨rfl, rfl⟩ := h1
    rw [semisQuoted.eq_def] at hq
    simp [h0, h2] at hq
    rw [Db.splitSqlLoop.eq_def]
    simp [h0, h2, ih hq]
  | case8 sq dq buf c h0 h1 ih =>
    intro _
    obtain ⟨rfl, rfl⟩ := h1
    rw [Db.splitSqlLoop.eq_def]
    simp [h0, ih (by simp [semisQuoted])]
  | case9 sq dq buf c rest h0 h1 h2 ih =>
    intro hq
    obtain ⟨rfl, rfl, rfl⟩ := h2
    rw [semisQuoted.eq_def] at hq
    simp at hq
  | case10 sq dq buf c rest h0 h1 h2 ih =>
    intro hq
    rw [semisQuoted.eq_def] at hq
    simp [h0, h1, h2] at hq
    rw [Db.splitSqlLoop.eq_def]
    simp [h0, h1, h2, ih hq]

/-- C2: for every SQL string in which every semicolon occurs inside a single-
or double-quoted region (and whose comment-stripped text is not blank, so that
there is a statement at all), the Statement Splitter `split_sql_statements`
used by the runner returns exactly one statement. -/
theorem quoted_semicolons_give_one_statement
    (sql : List Char)
    (hq : semisQuoted false false (Db.stripCommentLines sql) = true)
    (hne : pyStrip (Db.stripCommentLines sql) ≠ []) :
    (Db.split_sql_statements sql).length = 1 := by
  unfold Db.split_sql_statements
  rw [splitSqlLoop_all_quoted false false [] _ hq]
  simp [hne]

/-- Witness for C2: a concrete UPDATE whose two semicolons lie inside a
single-quoted literal is returned as a single statement. -/
theorem quoted_semicolons_give_one_statement_witness :
    semisQuoted false false
        (Db.stripCommentLines (cs "UPDATE t SET msg = 'a;b;c' WHERE id = 1")) = true ∧
    pyStrip (Db.stripCommentLines (cs "UPDATE t SET msg = 'a;b;c' WHERE id = 1")) ≠ [] ∧
    (Db.split_sql_statements (cs "UPDATE t SET msg = 'a;b;c' WHERE id = 1")).length = 1 :=
  ⟨by decide, by decide,
    quoted_semicolons_give_one_statement _ (by decide) (by decide)⟩

/-- C3: a doubled quote of the kind currently open is consumed by the Splitter
as two literal characters without toggling the in-quote flag (first two
conjuncts, one per quote kind), so the quoted region is not terminated early
and a later unquoted semicolon still ends the statement (third conjunct: the
escaped quote and the quoted semicolon stay inside the first statement, and
the later bare semicolon splits it from the second). -/
theorem escaped_quote_does_not_close_region :
    (∀ buf rest, Db.splitSqlLoop true false buf ('\'' :: '\'' :: rest) =
        Db.splitSqlLoop true false (buf ++ ['\'', '\'']) rest) ∧
    (∀ buf rest, Db.splitSqlLoop false true buf ('"' :: '"' :: rest) =
        Db.splitSqlLoop false true (buf ++ ['"', '"']) rest) ∧
    Db.split_sql_statements
        (cs "INSERT INTO t VALUES ('it''s a test; really'); DROP TABLE u") =
      [cs "INSERT INTO t VALUES ('it''s a test; really')", cs "DROP TABLE u"] := by
  refine ⟨?_, ?_, by decide⟩
  · intro buf rest
    rw [Db.splitSqlLoop]
    simp
  · intro buf rest
    rw [Db.splitSqlLoop]
    simp

namespace Backend

/-- `ensure_schema_version_table` always leaves the table existing. -/
theorem ensure_tableExists (db : DBState Nat σ) :
    (ensure_schema_version_table db).tableExists = true := by
  unfold ensure_schema_version_table
  by_cases h : db.tableExists <;> simp [h]

/-- `ensure_schema_version_table` is the identity on a state whose table
exists. -/
theorem ensure_of_tableExists (db : DBState Nat σ) (h : db.tableExists = true) :
    ensure_schema_version_table db = db := by
  unfold ensure_schema_version_table
  simp [h]

/-- `ensure_schema_version_table` does not change the version records. -/
theorem versionRecords_ensure (db : DBState Nat σ) :
    versionRecords (ensure_schema_version_table db) = versionRecords db := by
  unfold ensure_schema_version_table versionRecords
  by_cases h : db.tableExists <;> simp [h]

/-- A tracked version is at most the maximum. -/
theorem le_maxVersion_of_mem (rows : List (Nat × List Char)) (r : Nat × List Char)
    (h : r ∈ rows) : r.1 ≤ maxVersion rows := by
  induction rows with
  | nil => simp at h
  | cons a l ih =>
    rcases List.mem_cons.mp h with h | h
    · subst h
      simp only [maxVersion, List.foldr_cons]
      omega
    · have := ih h
      simp only [maxVersion, List.foldr_cons] at this ⊢
      omega

/-- The maximum over a prefix bounds the maximum over the whole list. -/
theorem maxVersion_le_append_left (a b : List (Nat × List Char)) :
    maxVersion a ≤ maxVersion (a ++ b) := by
  induction a with
  | nil => simp [maxVersion]
  | cons x l ih =>
    simp only [List.cons_append, maxVersion, List.foldr_cons] at ih ⊢
    omega

/-- Characterisation of a successful backend upgrade application: the tracking
table gains exactly this migration's row at the end, and table existence is
unchanged. -/
theorem apply_upgrade_some (exec : σ → List Char → Option σ) (db db' : DBState Nat σ)
    (m : Migration) (h : apply_migration exec db m .upgrade = some db') :
    db'.tracking = db.tracking ++ [(m.version, m.description)] ∧
    db'.tableExists = db.tableExists := by
  unfold apply_migration at h
  rcases hp : parse_migration_file m.content with - | ⟨up, down⟩
  · simp [hp] at h
  · simp only [hp] at h
    by_cases hud : up = [] ∨ down = []
    · simp [hud] at h
    · rw [if_neg hud] at h
      rcases he : execAll exec db.user (splitStatements up) with - | u'
      · simp [he] at h
      · simp only [he, Option.some.injEq] at h
        subst h
        simp

/-- Characterisation of a successful backend downgrade application: the
tracking row of this migration's version is deleted, and table existence is
unchanged. -/
theorem apply_downgrade_some (exec : σ → List Char → Option σ) (db db' : DBState Nat σ)
    (m : Migration) (h : apply_migration exec db m .downgrade = some db') :
    db'.tracking = db.tracking.filter (fun r => decide (r.1 ≠ m.version)) ∧
    db'.tableExists = db.tableExists := by
  unfold apply_migration at h
  rcases hp : parse_migration_file m.content with - | ⟨up, down⟩
  · simp [hp] at h
  · simp only [hp] at h
    by_cases hud : up = [] ∨ down = []
    · simp [hud] at h
    · rw [if_neg hud] at h
      rcases he : execAll exec db.user (splitStatements down) with - | u'
      · simp [he] at h
      · simp only [he, Option.some.injEq] at h
        subst h
        simp

/-- The upgrade loop runs through an already-successful prefix. -/
theorem upgradeLoop_append (exec : σ → List Char → Option σ)
    (done : List Migration) :
    ∀ (db dbk : DBState Nat σ) (l : List Migration),
      applyAll exec db done = some dbk →
      upgradeLoop exec db (done ++ l) = upgradeLoop exec dbk l := by
  induction done with
  | nil =>
    intro db dbk l h
    simp only [applyAll, Option.some.injEq] at h
    subst h
    simp
  | cons m rest ih =>
    intro db dbk l h
    rcases ha : apply_migration exec db m .upgrade with - | db2
    · simp [applyAll, ha] at h
    · simp only [applyAll, ha] at h
      simp only [List.cons_append, upgradeLoop, ha]
      exact ih db2 dbk l h

/-- A successful run of the upgrade loop appends exactly the rows of the
migrations it applied, and keeps the table existing. -/
theorem upgradeLoop_ok (exec : σ → List Char → Option σ) (l : List Migration) :
    ∀ (db db' : DBState Nat σ), db.tableExists = true →
      upgradeLoop exec db l = RunResult.ok db' →
      db'.tableExists = true ∧
      db'.tracking = db.tracking ++ l.map (fun m => (m.version, m.description)) := by
  induction l with
  | nil =>
    intro db db' hex h
    simp only [upgradeLoop, RunResult.ok.injEq] at h
    rw [ensure_of_tableExists db hex] at h
    subst h
    simp [hex]
  | cons m rest ih =>
    intro db db' hex h
    rcases ha : apply_migration exec db m .upgrade with - | db2
    · simp [upgradeLoop, ha] at h
    · simp only [upgradeLoop, ha] at h
      obtain ⟨htr, hte⟩ := apply_upgrade_some exec db db2 m ha
      obtain ⟨h1, h2⟩ := ih db2 db' (by rw [hte, hex]) h
      refine ⟨h1, ?_⟩
      rw [h2, htr]
      simp

/-- A successful `applyAll` prefix appends exactly the prefix's rows and keeps
table existence. -/
theorem applyAll_some (exec : σ → List Char → Option σ) (done : List Migration) :
    ∀ (db dbk : DBState Nat σ),
      applyAll exec db done = some dbk →
      dbk.tracking = db.tracking ++ done.map (fun m => (m.version, m.description)) ∧
      dbk.tableExists = db.tableExists := by
  induction done with
  | nil =>
    intro db dbk h
    simp only [applyAll, Option.some.injEq] at h
    subst h
    simp
  | cons m rest ih =>
    intro db dbk h
    rcases ha : apply_migration exec db m .upgrade with - | db2
    · simp [applyAll, ha] at h
    · simp only [applyAll, ha] at h
      obtain ⟨htr, hte⟩ := apply_upgrade_some exec db db2 m ha
      obtain ⟨h1, h2⟩ := ih db2 dbk h
      constructor
      · rw [h1, htr]
        simp
      · rw [h2, hte]

end Backend

/-- C9: the check command never mutates the Version Store: after `cmd_check`
the set of version records is identical to what it was before the call (the
only write on its path is the idempotent `CREATE TABLE IF NOT EXISTS`), and
the user schema state is untouched. -/
theorem check_never_mutates_version_store {σ : Type} (db : DBState Nat σ)
    (migrations : List Backend.Migration) :
    Backend.versionRecords (Backend.cmd_check db migrations).1 =
      Backend.versionRecords db ∧
    (Backend.cmd_check db migrations).1.user = db.user := by
  have h1 : (Backend.cmd_check db migrations).1 =
      Backend.ensure_schema_version_table db := by
    unfold Backend.cmd_check Backend.get_current_version
    simp
  rw [h1]
  refine ⟨Backend.versionRecords_ensure db, ?_⟩
  unfold Backend.ensure_schema_version_table
  by_cases hex : db.tableExists <;> simp [hex]

/-- C10: with the store uninitialised or at base version (current version at
most 1), the downgrade command is a no-op: it returns normally right after the
warning for every execution oracle (hence executes no SQL), every target
argument and every migration list, and the version records and user state are
unchanged. -/
theorem downgrade_noop_at_base {σ : Type} (exec : σ → List Char → Option σ)
    (db : DBState Nat σ) (migrations : List Backend.Migration)
    (targetArg : Option (List Char))
    (h : Backend.maxVersion (Backend.ensure_schema_version_table db).tracking ≤ 1) :
    Backend.cmd_downgrade exec db migrations targetArg =
      RunResult.ok (Backend.ensure_schema_version_table db) ∧
    Backend.versionRecords (Backend.ensure_schema_version_table db) =
      Backend.versionRecords db ∧
    (Backend.ensure_schema_version_table db).user = db.user := by
  refine ⟨?_, Backend.versionRecords_ensure db, ?_⟩
  · unfold Backend.cmd_downgrade Backend.get_current_version
    simp [h]
  · unfold Backend.ensure_schema_version_table
    by_cases hex : db.tableExists <;> simp [hex]

/-- Witness for C10: at current version 1 the downgrade command with an
explicit target and a rollback-capable change-set on disk returns normally and
changes nothing. -/
theorem downgrade_noop_at_base_witness :
    Backend.maxVersion (Backend.ensure_schema_version_table dbV1).tracking ≤ 1 ∧
    Backend.cmd_downgrade execLog dbV1 [migV2] (some (cs "V001")) =
      RunResult.ok (Backend.ensure_schema_version_table dbV1) ∧
    Backend.versionRecords (Backend.ensure_schema_version_table dbV1) =
      Backend.versionRecords dbV1 ∧
    (Backend.ensure_schema_version_table dbV1).user = dbV1.user :=
  ⟨by decide, downgrade_noop_at_base execLog dbV1 [migV2] (some (cs "V001")) (by decide)⟩

namespace Backend

/-- After a successful upgrade run the table exists and every discovered
migration's version is bounded by the new current version. -/
theorem cmd_upgrade_ok_bound {σ : Type} (exec : σ → List Char → Option σ)
    (db db' : DBState Nat σ) (migrations : List Migration)
    (h : cmd_upgrade exec db migrations = RunResult.ok db') :
    db'.tableExists = true ∧
    ∀ m ∈ migrations, m.version ≤ maxVersion db'.tracking := by
  unfold cmd_upgrade get_current_version at h
  simp only [] at h
  by_cases hp : migrations.filter
      (fun m => decide (maxVersion (ensure_schema_version_table db).tracking < m.version)) = []
  · rw [if_pos hp] at h
    simp only [RunResult.ok.injEq] at h
    subst h
    refine ⟨ensure_tableExists db, fun m hm => ?_⟩
    have := List.filter_eq_nil_iff.mp hp m hm
    simp only [decide_eq_true_eq, not_lt] at this
    exact this
  · rw [if_neg hp] at h
    obtain ⟨hex, htr⟩ := upgradeLoop_ok exec _ _ db' (ensure_tableExists db) h
    refine ⟨hex, fun m hm => ?_⟩
    by_cases hlt : maxVersion (ensure_schema_version_table db).tracking < m.version
    · have hmemf : m ∈ migrations.filter
          (fun mm => decide (maxVersion (ensure_schema_version_table db).tracking < mm.version)) := by
        rw [List.mem_filter]
        exact ⟨hm, by simpa using hlt⟩
      have : (m.version, m.description) ∈ db'.tracking := by
        rw [htr]
        refine List.mem_append_right _ ?_
        exact List.mem_map.mpr ⟨m, hmemf, rfl⟩
      exact le_maxVersion_of_mem _ _ this
    · push_neg at hlt
      calc m.version ≤ maxVersion (ensure_schema_version_table db).tracking := hlt
        _ ≤ maxVersion db'.tracking := by
            rw [htr]
            exact maxVersion_le_append_left _ _

end Backend

/-- C5: running upgrade twice in a row is idempotent at the tracking level: if
the first run returns normally (all pending change-sets applied), the second
run computes an empty pending set and returns "up to date" with the version
store unchanged, and it does so for every execution oracle, hence executes no
SQL at all. -/
theorem upgrade_twice_idempotent {σ : Type} (exec : σ → List Char → Option σ)
    (db db' : DBState Nat σ) (migrations : List Backend.Migration)
    (h : Backend.cmd_upgrade exec db migrations = RunResult.ok db') :
    migrations.filter
        (fun m => decide (Backend.maxVersion db'.tracking < m.version)) = [] ∧
    ∀ exec2 : σ → List Char → Option σ,
      Backend.cmd_upgrade exec2 db' migrations = RunResult.ok db' := by
  obtain ⟨hex, hbound⟩ := Backend.cmd_upgrade_ok_bound exec db db' migrations h
  have hfil : migrations.filter
      (fun m => decide (Backend.maxVersion db'.tracking < m.version)) = [] := by
    refine List.filter_eq_nil_iff.mpr (fun m hm => ?_)
    simp only [decide_eq_true_eq, not_lt]
    exact hbound m hm
  refine ⟨hfil, fun exec2 => ?_⟩
  unfold Backend.cmd_upgrade Backend.get_current_version
  rw [Backend.ensure_of_tableExists db' hex]
  simp [hfil]

/-- Witness for C5: after upgrading `dbV1` with `migV2` pending, a second run
returns the same state unchanged, for the logging oracle and the faulty
oracle alike. -/
theorem upgrade_twice_idempotent_witness :
    Backend.cmd_upgrade execLog dbV1 [migV2] = RunResult.ok dbV2' ∧
    ([migV2].filter
        (fun m => decide (Backend.maxVersion dbV2'.tracking < m.version)) = [] ∧
      ∀ exec2 : List (List Char) → List Char → Option (List (List Char)),
        Backend.cmd_upgrade exec2 dbV2' [migV2] = RunResult.ok dbV2') :=
  ⟨by decide, upgrade_twice_idempotent execLog dbV1 dbV2' [migV2] (by decide)⟩

/-- C1: during an upgrade run, if a statement of a pending change-set fails,
then the run's result is `sys.exit(1)` with the committed state exactly the
one reached after the previously applied pending change-sets: no statement of
the failing change-set takes effect, its version gains no tracking row, and
no later pending change-set is attempted (the result does not depend on
`later`). -/
theorem upgrade_halts_on_statement_failure {σ : Type}
    (exec : σ → List Char → Option σ) (db : DBState Nat σ)
    (migrations done later : List Backend.Migration) (m : Backend.Migration)
    (dbk : DBState Nat σ) (upgrade_sql downgrade_sql : List Char)
    (hpend : migrations.filter
        (fun mm => decide (Backend.maxVersion
          (Backend.ensure_schema_version_table db).tracking < mm.version)) =
        done ++ m :: later)
    (hdone : Backend.applyAll exec (Backend.ensure_schema_version_table db) done =
      some dbk)
    (hparse : Backend.parse_migration_file m.content = some (upgrade_sql, downgrade_sql))
    (hup : upgrade_sql ≠ []) (hdown : downgrade_sql ≠ [])
    (hfail : execAll exec dbk.user (Backend.splitStatements upgrade_sql) = none) :
    Backend.cmd_upgrade exec db migrations = RunResult.exited 1 dbk ∧
    dbk.tracking = (Backend.ensure_schema_version_table db).tracking ++
      done.map (fun d => (d.version, d.description)) ∧
    (m.version ∉ ((Backend.ensure_schema_version_table db).tracking.map Prod.fst) →
      (∀ d ∈ done, d.version ≠ m.version) →
      m.version ∉ dbk.tracking.map Prod.fst) := by
  have happly : Backend.apply_migration exec dbk m Direction.upgrade = none := by
    unfold Backend.apply_migration
    simp only [hparse]
    rw [if_neg (by simp [hup, hdown])]
    simp [hfail]
  have hrun : Backend.cmd_upgrade exec db migrations = RunResult.exited 1 dbk := by
    unfold Backend.cmd_upgrade Backend.get_current_version
    simp only []
    rw [hpend, if_neg (by simp)]
    rw [Backend.upgradeLoop_append exec done _ dbk (m :: later) hdone]
    simp only [Backend.upgradeLoop, happly]
  obtain ⟨htrk, -⟩ := Backend.applyAll_some exec done _ dbk hdone
  refine ⟨hrun, htrk, ?_⟩
  intro hnot hver hmem
  rw [htrk, List.map_append, List.mem_append] at hmem
  rcases hmem with hmem | hmem
  · exact hnot hmem
  · rw [List.map_map] at hmem
    simp only [List.mem_map, Function.comp_apply] at hmem
    obtain ⟨d, hd, hdv⟩ := hmem
    exact hver d hd hdv

/-- Witness for C1: with `migBad` (whose upgrade statement `BOOM` fails) first
in the pending set and `migV3` after it, the run exits with code 1 leaving the
store exactly as it was, and no row for version 2 appears. -/
theorem upgrade_halts_on_statement_failure_witness :
    Backend.parse_migration_file migBad.content = some (cs "BOOM", cs "NOP") ∧
    execAll execBoom dbV1.user (Backend.splitStatements (cs "BOOM")) = none ∧
    (Backend.cmd_upgrade execBoom dbV1 [migBad, migV3] = RunResult.exited 1 dbV1 ∧
      dbV1.tracking = (Backend.ensure_schema_version_table dbV1).tracking ++
        ([] : List Backend.Migration).map (fun d => (d.version, d.description)) ∧
      (migBad.version ∉
          ((Backend.ensure_schema_version_table dbV1).tracking.map Prod.fst) →
        (∀ d ∈ ([] : List Backend.Migration), d.version ≠ migBad.version) →
        migBad.version ∉ dbV1.tracking.map Prod.fst)) :=
  ⟨by decide, by decide,
    upgrade_halts_on_statement_failure execBoom dbV1 [migBad, migV3] [] [migV3]
      migBad dbV1 (cs "BOOM") (cs "NOP") (by decide) (by decide) (by decide)
      (by decide) (by decide) (by decide)⟩

/-- C4: with the store at current version `v3` and change-sets `v1 < v2 < v3`
on disk, downgrading to target `v1` processes exactly the change-sets in
`(v1, v3]` in descending order — `m3`'s downgrade first (reaching `dbA`), then
`m2`'s (reaching `dbB`) — deleting each one's tracking row, so the tracking
table ends with only versions at most `v1`. -/
theorem downgrade_to_target_processes_range {σ : Type}
    (exec : σ → List Char → Option σ) (db dbA dbB : DBState Nat σ)
    (m1 m2 m3 : Backend.Migration) (v1 v2 v3 : Nat) (s : List Char)
    (hx : db.tableExists = true)
    (h1 : m1.version = v1) (h2 : m2.version = v2) (h3 : m3.version = v3)
    (o12 : v1 < v2) (o23 : v2 < v3)
    (hcur : Backend.maxVersion db.tracking = v3)
    (hs : Backend.parseVersionArg s = some v1)
    (hA : Backend.apply_migration exec db m3 Direction.downgrade = some dbA)
    (hB : Backend.apply_migration exec dbA m2 Direction.downgrade = some dbB)
    (htr : ∀ p ∈ db.tracking, p.1 ≤ v1 ∨ p.1 = v2 ∨ p.1 = v3) :
    Backend.cmd_downgrade exec db [m1, m2, m3] (some s) = RunResult.ok dbB ∧
    dbB.tracking = (db.tracking.filter (fun r => decide (r.1 ≠ v3))).filter
      (fun r => decide (r.1 ≠ v2)) ∧
    ∀ p ∈ dbB.tracking, p.1 ≤ v1 := by
  have hens : Backend.ensure_schema_version_table db = db :=
    Backend.ensure_of_tableExists db hx
  obtain ⟨htrA, hteA⟩ := Backend.apply_downgrade_some exec db dbA m3 hA
  obtain ⟨htrB, hteB⟩ := Backend.apply_downgrade_some exec dbA dbB m2 hB
  have hexB : dbB.tableExists = true := by rw [hteB, hteA, hx]
  have htrB' : dbB.tracking = (db.tracking.filter (fun r => decide (r.1 ≠ v3))).filter
      (fun r => decide (r.1 ≠ v2)) := by
    rw [htrB, htrA, h2, h3]
  have hfil : ([m1, m2, m3].filter
      (fun mm => decide (v1 < mm.version ∧ mm.version ≤ v3))).reverse = [m3, m2] := by
    simp only [List.filter_cons, List.filter_nil, h1, h2, h3, decide_eq_true_eq]
    rw [if_neg (by omega), if_pos (by omega), if_pos (by omega)]
    simp
  have hloop : Backend.downgradeLoop exec db [m3, m2] = RunResult.ok dbB := by
    simp only [Backend.downgradeLoop, hA, hB]
    rw [Backend.ensure_of_tableExists dbB hexB]
  have hrun : Backend.cmd_downgrade exec db [m1, m2, m3] (some s) =
      RunResult.ok dbB := by
    unfold Backend.cmd_downgrade Backend.get_current_version
    simp only []
    rw [hens, hcur, if_neg (by omega)]
    simp only [hs]
    rw [if_neg (by omega)]
    unfold Backend.runRollback
    rw [hfil, hloop]
  refine ⟨hrun, htrB', ?_⟩
  intro p hp
  rw [htrB'] at hp
  have hne2 : p.1 ≠ v2 := by simpa using List.of_mem_filter hp
  have hp' : p ∈ db.tracking.filter (fun r => decide (r.1 ≠ v3)) :=
    List.mem_of_mem_filter hp
  have hne3 : p.1 ≠ v3 := by simpa using List.of_mem_filter hp'
  rcases htr p (List.mem_of_mem_filter hp') with hle | he2 | he3
  · exact hle
  · exact absurd he2 hne2
  · exact absurd he3 hne3

/-- Witness for C4: rolling `dbV3` back to target V001 executes `migV3`'s then
`migV2`'s downgrade and leaves only the version-1 row. -/
theorem downgrade_to_target_processes_range_witness :
    Backend.apply_migration execLog dbV3 migV3 Direction.downgrade = some dbV3a ∧
    Backend.apply_migration execLog dbV3a migV2 Direction.downgrade = some dbV3b ∧
    (Backend.cmd_downgrade execLog dbV3 [migV1, migV2, migV3] (some (cs "V001")) =
        RunResult.ok dbV3b ∧
      dbV3b.tracking = (dbV3.tracking.filter (fun r => decide (r.1 ≠ 3))).filter
        (fun r => decide (r.1 ≠ 2)) ∧
      ∀ p ∈ dbV3b.tracking, p.1 ≤ 1) :=
  ⟨by decide, by decide,
    downgrade_to_target_processes_range execLog dbV3 dbV3a dbV3b migV1 migV2 migV3
      1 2 3 (cs "V001") (by decide) (by decide) (by decide) (by decide) (by decide)
      (by decide) (by decide) (by decide) (by decide) (by decide) (by decide)⟩

/-- C6 (failing evaluation): the discovery operation of
`src/db/manage_migrations.py` returns files in directory-listing order, not
sorted by ordering key: with the 2.0.0→3.0.0 file listed first the result
keeps it before the 1.0.0→2.0.0 file, and reversing the listing reverses the
result, so the output depends on the filesystem's listing order.  (The backend
runner's discovery does sort; the db runner's docstring claims "sorted by
version" but applies no sort.) -/
theorem db_discovery_keeps_listing_order :
    Db.get_migration_files
        [(cs "migrate_2_0_0_to_3_0_0.sql", cs "a"),
         (cs "migrate_1_0_0_to_2_0_0.sql", cs "b")] =
      [⟨cs "2.0.0", cs "3.0.0", cs "migrate_2_0_0_to_3_0_0.sql", cs "a"⟩,
       ⟨cs "1.0.0", cs "2.0.0", cs "migrate_1_0_0_to_2_0_0.sql", cs "b"⟩] ∧
    Db.get_migration_files
        [(cs "migrate_1_0_0_to_2_0_0.sql", cs "b"),
         (cs "migrate_2_0_0_to_3_0_0.sql", cs "a")] =
      [⟨cs "1.0.0", cs "2.0.0", cs "migrate_1_0_0_to_2_0_0.sql", cs "b"⟩,
       ⟨cs "2.0.0", cs "3.0.0", cs "migrate_2_0_0_to_3_0_0.sql", cs "a"⟩] ∧
    Backend.get_migration_files
        [(cs "V3_add_w.sql", cs "a"), (cs "V1_base.sql", cs "b"),
         (cs "V2_add_u.sql", cs "c")] =
      [⟨1, cs "base", cs "V1_base.sql", cs "b"⟩,
       ⟨2, cs "add u", cs "V2_add_u.sql", cs "c"⟩,
       ⟨3, cs "add w", cs "V3_add_w.sql", cs "a"⟩] := by
  refine ⟨by decide, by decide, by decide⟩

/-- C7 (counterexample): the backend engine does not tolerate a forward-only
change-set.  Its parser rejects a file lacking the DOWNGRADE marker, and
`apply_migration` fails in the upgrade direction — both for a missing marker
and for a marker followed by empty text — although every statement would
execute successfully, so "the engine accepts the file and applies it in the
upgrade direction" is false of this engine. -/
theorem backend_rejects_forward_only :
    Backend.parse_migration_file fwdOnlyContent = none ∧
    Backend.apply_migration execLog dbV1 migFwdOnly Direction.upgrade = none ∧
    Backend.parse_migration_file emptyDownContent =
      some (cs "CREATE TABLE y (b INT)", []) ∧
    Backend.apply_migration execLog dbV1 migEmptyDown Direction.upgrade = none := by
  refine ⟨by decide, by decide, by decide, by decide⟩

/-- C7 (amended): the `src/db` engine tolerates a forward-only change-set:
when the file parses to a non-empty upgrade body and an empty downgrade body,
the upgrade direction applies it (executing its statements and appending its
tracking row), and a rollback attempt fails for every database state and every
execution oracle — before executing anything. -/
theorem db_tolerates_forward_only {σ : Type} (exec : σ → List Char → Option σ)
    (db : DBState (List Char) σ) (m : Db.Migration) (upgrade_sql : List Char) (u' : σ)
    (hparse : Db.parse_migration_file m.content = some (upgrade_sql, []))
    (hup : upgrade_sql ≠ [])
    (hexec : execAll exec db.user
      ((Db.split_sql_statements upgrade_sql).filter (fun st => !st.isEmpty)) =
      some u') :
    Db.apply_migration exec db m Direction.upgrade =
      some { db with
             user := u'
             tracking := db.tracking ++
               [(m.to_version, cs "Migration to " ++ m.to_version)] } ∧
    ∀ (exec2 : σ → List Char → Option σ) (db2 : DBState (List Char) σ),
      Db.apply_migration exec2 db2 m Direction.downgrade = none := by
  constructor
  · unfold Db.apply_migration
    simp [hparse, hup, hexec]
  · intro exec2 db2
    unfold Db.apply_migration
    simp [hparse, hup]

/-- Witness for C7 (amended): the forward-only file upgrades successfully on
the db engine and its rollback fails without touching any state. -/
theorem db_tolerates_forward_only_witness :
    Db.parse_migration_file migFwdOnlyDb.content =
      some (cs "CREATE TABLE y (b INT)", []) ∧
    execAll execLog dbDb.user
      ((Db.split_sql_statements (cs "CREATE TABLE y (b INT)")).filter
        (fun st => !st.isEmpty)) = some [cs "CREATE TABLE y (b INT)"] ∧
    (Db.apply_migration execLog dbDb migFwdOnlyDb Direction.upgrade =
      some { dbDb with
             user := [cs "CREATE TABLE y (b INT)"]
             tracking := dbDb.tracking ++
               [(migFwdOnlyDb.to_version,
                 cs "Migration to " ++ migFwdOnlyDb.to_version)] } ∧
    ∀ (exec2 : List (List Char) → List Char → Option (List (List Char)))
      (db2 : DBState (List Char) (List (List Char))),
      Db.apply_migration exec2 db2 migFwdOnlyDb Direction.downgrade = none) :=
  ⟨by decide, by decide,
    db_tolerates_forward_only execLog dbDb migFwdOnlyDb
      (cs "CREATE TABLE y (b INT)") [cs "CREATE TABLE y (b INT)"]
      (by decide) (by decide) (by decide)⟩

/-- C8 (counterexample): for old schema {A, B} and new schema {B, C}, the
generated downgrade list recreates A and then drops C: the drop of C is NOT
placed ahead of the creation of A in execution order — the creation of A comes
first (`occursBefore` of drop-C before create-A is false, the converse true). -/
theorem differ_downgrade_order_counterexample :
    (Gen.generate_diff exOld exNew).2 =
      [cs "-- Recreate table: A", cs "CREATE TABLE A (x INT);", [],
       cs "-- Drop table: C", cs "DROP TABLE IF EXISTS C;", []] ∧
    occursBefore (cs "DROP TABLE IF EXISTS C;") (cs "CREATE TABLE A (x INT);")
      (Gen.generate_diff exOld exNew).2 = false ∧
    occursBefore (cs "CREATE TABLE A (x INT);") (cs "DROP TABLE IF EXISTS C;")
      (Gen.generate_diff exOld exNew).2 = true := by
  refine ⟨by decide, by decide, by decide⟩

/-- C8 (amended): for old schema text defining exactly tables {A, B} and new
schema text defining exactly {B, C} (B's definition unchanged), the generated
upgrade creates C and then drops A, and the generated downgrade creates A and
drops C — with the creation of A placed ahead of the drop of C in execution
order (the code front-inserts each new downgrade block, so the blocks appear
in reverse discovery order). -/
theorem differ_tables_diff (from_sql to_sql A B C dA dB dC fullA fullB fullB' fullC : List Char)
    (hf : Gen.extract_table_definitions from_sql = [(A, (dA, fullA)), (B, (dB, fullB))])
    (ht : Gen.extract_table_definitions to_sql = [(B, (dB, fullB')), (C, (dC, fullC))])
    (hAB : A ≠ B) (hBC : B ≠ C) (hAC : A ≠ C) :
    Gen.generate_diff from_sql to_sql =
      ([cs "-- Create new table: " ++ C, fullC, [],
        cs "-- Drop table: " ++ A, cs "DROP TABLE IF EXISTS " ++ A ++ cs ";", []],
       [cs "-- Recreate table: " ++ A, fullA, [],
        cs "-- Drop table: " ++ C, cs "DROP TABLE IF EXISTS " ++ C ++ cs ";", []]) := by
  unfold Gen.generate_diff
  rw [hf, ht]
  simp [Gen.hasTable, Gen.lookupTable, hAB, hBC, hAC, Ne.symm hAB, Ne.symm hBC,
    Ne.symm hAC]

/-- Witness for C8 (amended): the concrete {A,B} → {B,C} schema pair. -/
theorem differ_tables_diff_witness :
    Gen.extract_table_definitions exOld =
      [(cs "A", (cs "x INT", cs "CREATE TABLE A (x INT);")),
       (cs "B", (cs "y INT", cs "CREATE TABLE B (y INT);"))] ∧
    Gen.extract_table_definitions exNew =
      [(cs "B", (cs "y INT", cs "CREATE TABLE B (y INT);")),
       (cs "C", (cs "z INT", cs "CREATE TABLE C (z INT);"))] ∧
    Gen.generate_diff exOld exNew =
      ([cs "-- Create new table: " ++ cs "C", cs "CREATE TABLE C (z INT);", [],
        cs "-- Drop table: " ++ cs "A",
        cs "DROP TABLE IF EXISTS " ++ cs "A" ++ cs ";", []],
       [cs "-- Recreate table: " ++ cs "A", cs "CREATE TABLE A (x INT);", [],
        cs "-- Drop table: " ++ cs "C",
        cs "DROP TABLE IF EXISTS " ++ cs "C" ++ cs ";", []]) :=
  ⟨by decide, by decide,
    differ_tables_diff exOld exNew (cs "A") (cs "B") (cs "C") (cs "x INT")
      (cs "y INT") (cs "z INT") (cs "CREATE TABLE A (x INT);")
      (cs "CREATE TABLE B (y INT);") (cs "CREATE TABLE B (y INT);")
      (cs "CREATE TABLE C (z INT);") (by decide) (by decide) (by decide)
      (by decide) (by decide)⟩
